import Mathlib

/-!
# Verification of the RansomEye fastpath capture subsystem

Shallow embedding of the two source files of the repository:

* `src/dpi-advanced/fastpath/ebpf_flow_tracker.c` — the XDP program
  `xdp_flow_tracker`: flow-key extraction from raw frame bytes and the
  per-flow counter map `flow_map` (a bounded BPF hash map).
* `src/dpi-advanced/fastpath/af_packet_capture.c` — `af_packet_init`
  (socket / ring-buffer setup, modelled as a step function over an
  environment that says which system call succeeds) and
  `af_packet_process` (the per-frame ring processor).

Frames are lists of bytes (`List Nat`, each entry a byte value).  Reads
of multi-byte wire fields are big-endian (the value a `__be16`/`__be32`
field denotes on the wire); reads of host ring metadata (`tpacket`
structures) are little-endian.  Every memory read is bounds-checked in
the model and returns `Option`: a `none` from a read marks an
out-of-bounds access, which the C program must never perform.
`__u64` counters are modelled as `Nat` reduced modulo `2 ^ 64` where the
code adds to them.
-/

/-! ## Constants (from the C headers and the two source files) -/

def ETH_P_IP : Nat := 0x0800
def IPPROTO_TCP : Nat := 6
def IPPROTO_UDP : Nat := 17
def MAX_FLOWS : Nat := 65536
/-- `sizeof(struct ethhdr)` -/
def ETH_HLEN : Nat := 14
/-- `sizeof(struct iphdr)` -/
def IP_HLEN : Nat := 20
/-- `sizeof(struct tcphdr)` -/
def TCP_HLEN : Nat := 20
/-- `sizeof(struct udphdr)` -/
def UDP_HLEN : Nat := 8
/-- 2 ^ 64, the modulus of `__u64` arithmetic. -/
def U64_MOD : Nat := 18446744073709551616

def BLOCK_SIZE : Nat := 65536
def FRAME_SIZE : Nat := 2048
def RING_SIZE : Nat := 4194304
def IFNAMSIZ : Nat := 16

/-! ## Bounds-checked byte reads -/

/-- Read one byte; `none` when the index is past the end of the data. -/
def read8 (pkt : List Nat) (i : Nat) : Option Nat := pkt[i]?

/-- Big-endian 16-bit read (the value of a `__be16` field on the wire). -/
def read16be (pkt : List Nat) (i : Nat) : Option Nat := do
  let a ← read8 pkt i
  let b ← read8 pkt (i + 1)
  pure (a * 256 + b)

/-- Big-endian 32-bit read (the value of a `__be32` field on the wire). -/
def read32be (pkt : List Nat) (i : Nat) : Option Nat := do
  let a ← read16be pkt i
  let b ← read16be pkt (i + 2)
  pure (a * 65536 + b)

/-- Little-endian 16-bit read (host byte order, for ring metadata). -/
def read16le (ring : List Nat) (i : Nat) : Option Nat := do
  let a ← read8 ring i
  let b ← read8 ring (i + 1)
  pure (a + b * 256)

/-- Little-endian 32-bit read (host byte order, for ring metadata). -/
def read32le (ring : List Nat) (i : Nat) : Option Nat := do
  let a ← read16le ring i
  let b ← read16le ring (i + 2)
  pure (a + b * 65536)

/-! ## Data model of `ebpf_flow_tracker.c` -/

/-- `struct flow_key`: field values as the raw (network-order) numbers
read from the wire, no byte-order conversion. -/
structure flow_key where
  src_ip : Nat
  dst_ip : Nat
  src_port : Nat
  dst_port : Nat
  protocol : Nat
deriving DecidableEq, Repr

/-- `struct flow_stats`. -/
structure flow_stats where
  packet_count : Nat
  byte_count : Nat
  l7_protocol : Nat
  first_seen : Nat
  last_seen : Nat
deriving DecidableEq, Repr

/-- The BPF hash map `flow_map`, as an association list without
duplicate keys; its cardinality is bounded by `MAX_FLOWS`. -/
abbrev FlowTable := List (flow_key × flow_stats)

/-- `bpf_map_lookup_elem(&flow_map, &key)`. -/
def bpf_map_lookup_elem : FlowTable → flow_key → Option flow_stats
  | [], _ => none
  | (k, s) :: rest, key => if k = key then some s else bpf_map_lookup_elem rest key

/-- In-place write through the pointer returned by lookup
(`stats->... = ...`): replaces the stats stored under `key`. -/
def flow_map_write : FlowTable → flow_key → flow_stats → FlowTable
  | [], _, _ => []
  | (k, s) :: rest, key, v =>
    if k = key then (k, v) :: rest else (k, s) :: flow_map_write rest key v

/-- `bpf_map_update_elem(&flow_map, &key, &v, BPF_ANY)`: replaces an
existing entry in place; inserts a new key only while fewer than
`MAX_FLOWS` entries exist, otherwise fails and leaves the map unchanged
(the C code ignores the returned error). -/
def bpf_map_update_elem (m : FlowTable) (key : flow_key) (v : flow_stats) : FlowTable :=
  match bpf_map_lookup_elem m key with
  | some _ => flow_map_write m key v
  | none => if m.length < MAX_FLOWS then m ++ [(key, v)] else m

/-- Lines 96–110 of `ebpf_flow_tracker.c`: look the key up; on a miss
insert fresh stats (count 1, bytes = frame length, `first_seen` =
`last_seen` = now, `l7_protocol` zero from the designated initializer);
on a hit increment the counters through the returned pointer and update
`last_seen`.  The two `bpf_ktime_get_ns()` calls of the insert branch
are modelled by the single parameter `now`. -/
def flow_stats_update (key : flow_key) (pkt_len now : Nat) (m : FlowTable) : FlowTable :=
  match bpf_map_lookup_elem m key with
  | none =>
    bpf_map_update_elem m key
      { packet_count := 1, byte_count := pkt_len % U64_MOD, l7_protocol := 0,
        first_seen := now, last_seen := now }
  | some stats =>
    flow_map_write m key
      { stats with
          packet_count := (stats.packet_count + 1) % U64_MOD,
          byte_count := (stats.byte_count + pkt_len) % U64_MOD,
          last_seen := now }

/-- Outcome of the header-parsing part of `xdp_flow_tracker`
(lines 50–94): `fault` marks an out-of-bounds read (a read attempted
past `data_end`), `pass` an early `return XDP_PASS` with no key built,
`key` a fully built `struct flow_key`. -/
inductive ExtractResult where
  | fault : ExtractResult
  | pass : ExtractResult
  | key : flow_key → ExtractResult
deriving DecidableEq, Repr

/-- Header parsing of `xdp_flow_tracker`, lines 50–94.  Offsets within
the frame: `h_proto` at 12; the IPv4 header starts at 14 with
`protocol` at 23, `saddr` at 26, `daddr` at 30; the transport header
starts at 34 (the code uses `ip + 1`, a fixed 20-byte IPv4 header) with
source port at 34 and destination port at 36.  Each pointer comparison
`(p + 1) > data_end` of the C code becomes the corresponding length
test.  Note the code checks `sizeof(struct tcphdr)` bytes of transport
header before reading ports for TCP *and* UDP; the UDP branch then
re-checks its own smaller bound. -/
def xdp_extract (pkt : List Nat) : ExtractResult :=
  if pkt.length < ETH_HLEN then ExtractResult.pass else
  match read16be pkt 12 with
  | none => ExtractResult.fault
  | some h_proto =>
    if h_proto ≠ ETH_P_IP then ExtractResult.pass else
    if pkt.length < ETH_HLEN + IP_HLEN then ExtractResult.pass else
    match read8 pkt 23, read32be pkt 26, read32be pkt 30 with
    | some proto, some saddr, some daddr =>
      if proto = IPPROTO_TCP ∨ proto = IPPROTO_UDP then
        if pkt.length < ETH_HLEN + IP_HLEN + TCP_HLEN then ExtractResult.pass else
        if proto = IPPROTO_TCP then
          match read16be pkt 34, read16be pkt 36 with
          | some sp, some dp =>
            ExtractResult.key
              { src_ip := saddr, dst_ip := daddr, src_port := sp, dst_port := dp,
                protocol := proto }
          | _, _ => ExtractResult.fault
        else
          if pkt.length < ETH_HLEN + IP_HLEN + UDP_HLEN then ExtractResult.pass else
          match read16be pkt 34, read16be pkt 36 with
          | some sp, some dp =>
            ExtractResult.key
              { src_ip := saddr, dst_ip := daddr, src_port := sp, dst_port := dp,
                protocol := proto }
          | _, _ => ExtractResult.fault
      else
        ExtractResult.key
          { src_ip := saddr, dst_ip := daddr, src_port := 0, dst_port := 0,
            protocol := proto }
    | _, _, _ => ExtractResult.fault

/-- XDP verdicts. -/
inductive XdpAction where
  | XDP_ABORTED : XdpAction
  | XDP_DROP : XdpAction
  | XDP_PASS : XdpAction
  | XDP_TX : XdpAction
  | XDP_REDIRECT : XdpAction
deriving DecidableEq, Repr

/-- The whole XDP program `xdp_flow_tracker` on one frame: parse,
update the flow map, return a verdict.  `pkt.length` is
`ctx->data_end - ctx->data`; `now` is `bpf_ktime_get_ns()`.  The outer
`Option` is `none` exactly when parsing attempted an out-of-bounds
read, which the theorems below rule out. -/
def xdp_flow_tracker (pkt : List Nat) (now : Nat) (m : FlowTable) :
    Option (XdpAction × FlowTable) :=
  match xdp_extract pkt with
  | ExtractResult.fault => none
  | ExtractResult.pass => some (XdpAction.XDP_PASS, m)
  | ExtractResult.key k => some (XdpAction.XDP_PASS, flow_stats_update k pkt.length now m)

/-- Run `xdp_flow_tracker` over a sequence of (frame, timestamp) pairs,
threading the flow table; `none` as soon as any step faults. -/
def xdp_run_all (frames : List (List Nat × Nat)) (m : FlowTable) : Option FlowTable :=
  frames.foldl
    (fun om f => om.bind fun t => (xdp_flow_tracker f.1 f.2 t).map Prod.snd)
    (some m)

/-- The flow-map state after a sequence of (frame length, timestamp)
updates for one key — iterating lines 96–110. -/
def processAll (key : flow_key) (pkts : List (Nat × Nat)) (m : FlowTable) : FlowTable :=
  pkts.foldl (fun t p => flow_stats_update key p.1 p.2 t) m

/-! ## Model of `af_packet_capture.c` -/

/-- Environment of `af_packet_init`: which of its system calls
succeeds, and the file descriptor `socket()` returns on success. -/
structure InitEnv where
  socket_ok : Bool
  sockfd : Nat
  ioctl_ok : Bool
  bind_ok : Bool
  setsockopt_ok : Bool
  mmap_ok : Bool
deriving DecidableEq, Repr

/-- Kernel resources held when `af_packet_init` returns: whether the
raw socket is still open, and the address of the mmapped ring region
when one is mapped. -/
structure ResState where
  socketOpen : Bool
  mapped : Option Nat
deriving DecidableEq, Repr

/-- `af_packet_init` (lines 51–102): create the raw socket, resolve
the interface index, bind, request the `PACKET_RX_RING`, mmap the
ring.  Each failing step after socket creation executes
`close(sockfd); return -1;`.  `ringAddr` is the address `mmap` would
return on success; the C code keeps it only in the local `ring`.
The result is the returned `int` paired with the resources held on
return. -/
def af_packet_init (env : InitEnv) (ringAddr : Nat) : Int × ResState :=
  -- sockfd = socket(AF_PACKET, SOCK_RAW, htons(ETH_P_ALL))
  if env.socket_ok = false then (-1, { socketOpen := false, mapped := none }) else
  -- ioctl(sockfd, SIOCGIFINDEX, &ifr): on failure close(sockfd); return -1
  if env.ioctl_ok = false then (-1, { socketOpen := false, mapped := none }) else
  -- bind(sockfd, ...): on failure close(sockfd); return -1
  if env.bind_ok = false then (-1, { socketOpen := false, mapped := none }) else
  -- setsockopt(sockfd, SOL_PACKET, PACKET_RX_RING, ...): same
  if env.setsockopt_ok = false then (-1, { socketOpen := false, mapped := none }) else
  -- ring = mmap(...): on MAP_FAILED close(sockfd); return -1
  if env.mmap_ok = false then (-1, { socketOpen := false, mapped := none }) else
  -- success: return sockfd; the mapping stays live, known only to the local
  ((env.sockfd : Int), { socketOpen := true, mapped := some ringAddr })

/-- `af_packet_process` (lines 108–126) over the ring bytes.  It reads
`block->h1.offset_to_first_pkt` (a `u32` at offset 16 of the block
descriptor) and `hdr->tp_mac` (a `u16` at offset 24 of the
`tpacket3_hdr`), computes the `eth` and `ip` pointers from them without
dereferencing either, and returns 0.  No length field of the frame is
consulted and no packet header byte is read.  A `none` marks a read
outside the ring bytes. -/
def af_packet_process (ring : List Nat) (block_idx frame_idx : Nat) : Option Int := do
  -- block = ring + block_idx * BLOCK_SIZE
  let off ← read32le ring (block_idx * BLOCK_SIZE + 16)
  -- frame = block + block->h1.offset_to_first_pkt + frame_idx * FRAME_SIZE
  let fbase := block_idx * BLOCK_SIZE + off + frame_idx * FRAME_SIZE
  -- eth = frame + hdr->tp_mac; ip = eth + sizeof(struct ethhdr)  (never read)
  let _tp_mac ← read16le ring (fbase + 24)
  pure 0

/-- `strncpy(ifr.ifr_name, interface, IFNAMSIZ)` (line 64) on a C
string whose content bytes (`src`, all nonzero) precede the NUL: copy
the first `n` content bytes, then zero-fill the rest of the `n`-byte
destination.  When `src` has at least `n` bytes nothing is zero-filled
and no NUL terminator is written. -/
def strncpyBuf (src : List Nat) (n : Nat) : List Nat :=
  src.take n ++ List.replicate (n - src.length) 0

/-! ## Concrete inputs used by witnesses and counterexamples -/

/-- A 54-byte Ethernet+IPv4+TCP frame: source 10.0.0.1 port 4444,
destination 10.0.0.2 port 80, protocol TCP (6). -/
def pktTCP : List Nat :=
  [0, 0, 0, 0, 0, 0, 0, 0, 0, 0, 0, 0,       -- MAC addresses
   0x08, 0x00,                               -- h_proto = ETH_P_IP
   0x45, 0, 0, 40, 0, 0, 0, 0, 64,           -- version..ttl
   6,                                        -- protocol = TCP
   0, 0,                                     -- header checksum
   10, 0, 0, 1,                              -- saddr = 10.0.0.1
   10, 0, 0, 2,                              -- daddr = 10.0.0.2
   17, 92,                                   -- source port 4444
   0, 80,                                    -- dest port 80
   0, 0, 0, 0, 0, 0, 0, 0, 0, 0, 0, 0, 0, 0, 0, 0]  -- rest of tcphdr

/-- The flow key of `pktTCP`: raw network-order field values
(10.0.0.1 = 0x0A000001, 10.0.0.2 = 0x0A000002). -/
def keyTCP : flow_key :=
  { src_ip := 167772161, dst_ip := 167772162, src_port := 4444, dst_port := 80,
    protocol := 6 }

/-- A 34-byte Ethernet+IPv4 frame carrying ICMP (protocol 1), source
address 0.1.17.112 (raw value 70000), destination 0.0.0.0. -/
def pktICMP : List Nat :=
  [0, 0, 0, 0, 0, 0, 0, 0, 0, 0, 0, 0,
   0x08, 0x00,
   0x45, 0, 0, 20, 0, 0, 0, 0, 64,
   1,                                        -- protocol = ICMP
   0, 0,
   0, 1, 17, 112,                            -- saddr, raw value 70000
   0, 0, 0, 0]                               -- daddr

/-- The flow key of `pktICMP`: zero ports, protocol 1. -/
def keyICMP : flow_key :=
  { src_ip := 70000, dst_ip := 0, src_port := 0, dst_port := 0, protocol := 1 }

/-- A flow table holding exactly `MAX_FLOWS` distinct keys (protocol
field 0, so disjoint from `keyICMP`). -/
def fullTable : FlowTable :=
  (List.range MAX_FLOWS).map fun i =>
    ({ src_ip := i, dst_ip := 0, src_port := 0, dst_port := 0, protocol := 0 },
     { packet_count := 1, byte_count := 60, l7_protocol := 0,
       first_seen := 0, last_seen := 0 })

/-- Ring bytes describing one truncated frame:
`offset_to_first_pkt` = 32, `tp_snaplen` (at frame offset 12, i.e.
ring offset 44) = 10 — a captured frame of only 10 bytes, far short of
an Ethernet+IPv4 header — and `tp_mac` = 0. -/
def ringTrunc : List Nat :=
  ((List.replicate 58 0).set 16 32).set 44 10

/-! ## Helper lemmas -/

theorem read16be_isSome (pkt : List Nat) (i : Nat) (h : i + 1 < pkt.length) :
    ∃ v, read16be pkt i = some v := by
  have h0 : i < pkt.length := by omega
  exact ⟨pkt[i] * 256 + pkt[i + 1],
    by simp [read16be, read8, List.getElem?_eq_getElem h0, List.getElem?_eq_getElem h]⟩

theorem read32be_isSome (pkt : List Nat) (i : Nat) (h : i + 3 < pkt.length) :
    ∃ v, read32be pkt i = some v := by
  obtain ⟨a, ha⟩ := read16be_isSome pkt i (by omega)
  obtain ⟨b, hb⟩ := read16be_isSome pkt (i + 2) (by omega)
  exact ⟨a * 65536 + b, by simp [read32be, ha, hb]⟩

/-- The parser of `xdp_flow_tracker` never reads out of bounds: every
dereference is preceded by the corresponding length check. -/
theorem xdp_extract_ne_fault (pkt : List Nat) :
    xdp_extract pkt ≠ ExtractResult.fault := by
  unfold xdp_extract
  by_cases h14 : pkt.length < ETH_HLEN
  · simp [h14]
  · rw [if_neg h14]
    have h14' : ETH_HLEN ≤ pkt.length := Nat.le_of_not_lt h14
    obtain ⟨hp, hhp⟩ := read16be_isSome pkt 12
      (by simp [ETH_HLEN] at h14'; omega)
    simp only [hhp]
    by_cases hip : hp ≠ ETH_P_IP
    · simp [hip]
    · rw [if_neg hip]
      by_cases h34 : pkt.length < ETH_HLEN + IP_HLEN
      · simp [h34]
      · rw [if_neg h34]
        have h34' : 34 ≤ pkt.length := by
          simp [ETH_HLEN, IP_HLEN] at h34; omega
        have h23 : (23 : Nat) < pkt.length := by omega
        obtain ⟨sa, hsa⟩ := read32be_isSome pkt 26 (by omega)
        obtain ⟨da, hda⟩ := read32be_isSome pkt 30 (by omega)
        simp only [show read8 pkt 23 = some pkt[23] from List.getElem?_eq_getElem h23,
          hsa, hda]
        by_cases htu : pkt[23] = IPPROTO_TCP ∨ pkt[23] = IPPROTO_UDP
        · rw [if_pos htu]
          by_cases h54 : pkt.length < ETH_HLEN + IP_HLEN + TCP_HLEN
          · simp [h54]
          · rw [if_neg h54]
            have h54' : 54 ≤ pkt.length := by
              simp [ETH_HLEN, IP_HLEN, TCP_HLEN] at h54; omega
            obtain ⟨sp, hsp⟩ := read16be_isSome pkt 34 (by omega)
            obtain ⟨dp, hdp⟩ := read16be_isSome pkt 36 (by omega)
            by_cases ht : pkt[23] = IPPROTO_TCP
            · simp [ht, hsp, hdp]
            · rw [if_neg ht]
              by_cases h42 : pkt.length < ETH_HLEN + IP_HLEN + UDP_HLEN
              · simp [h42]
              · simp [h42, hsp, hdp]
        · simp [htu]

/-- Any frame shorter than a full Ethernet + IPv4 header is passed
with no key built. -/
theorem xdp_extract_short {pkt : List Nat}
    (h : pkt.length < ETH_HLEN + IP_HLEN) :
    xdp_extract pkt = ExtractResult.pass := by
  unfold xdp_extract
  by_cases h14 : pkt.length < ETH_HLEN
  · simp [h14]
  · rw [if_neg h14]
    have h14' : ETH_HLEN ≤ pkt.length := Nat.le_of_not_lt h14
    obtain ⟨hp, hhp⟩ := read16be_isSome pkt 12
      (by simp [ETH_HLEN] at h14'; omega)
    simp only [hhp]
    by_cases hip : hp ≠ ETH_P_IP
    · simp [hip]
    · simp [hip, h]

theorem lookup_append_of_none {m : FlowTable} {k : flow_key}
    (h : bpf_map_lookup_elem m k = none) (l : FlowTable) :
    bpf_map_lookup_elem (m ++ l) k = bpf_map_lookup_elem l k := by
  induction m with
  | nil => rfl
  | cons p rest ih =>
    obtain ⟨k', s'⟩ := p
    by_cases hk : k' = k
    · simp [bpf_map_lookup_elem, hk] at h
    · simp only [bpf_map_lookup_elem, hk, if_false, List.cons_append] at h ⊢
      exact ih h

theorem lookup_write_self {m : FlowTable} {k : flow_key} {s : flow_stats}
    (v : flow_stats) (h : bpf_map_lookup_elem m k = some s) :
    bpf_map_lookup_elem (flow_map_write m k v) k = some v := by
  induction m with
  | nil => exact Option.noConfusion h
  | cons p rest ih =>
    obtain ⟨k', s'⟩ := p
    by_cases hk : k' = k
    · simp [bpf_map_lookup_elem, flow_map_write, hk]
    · simp only [bpf_map_lookup_elem, flow_map_write, hk, if_false] at h ⊢
      exact ih h

theorem lookup_none_of_all_ne {m : FlowTable} {k : flow_key}
    (h : ∀ p ∈ m, p.1 ≠ k) :
    bpf_map_lookup_elem m k = none := by
  induction m with
  | nil => rfl
  | cons p rest ih =>
    obtain ⟨k', s'⟩ := p
    have hk : k' ≠ k := h (k', s') (by simp)
    simp only [bpf_map_lookup_elem, hk, if_false]
    exact ih fun q hq => h q (by simp [hq])

theorem lookup_insert {m : FlowTable} {k : flow_key} (v : flow_stats)
    (habs : bpf_map_lookup_elem m k = none) (hroom : m.length < MAX_FLOWS) :
    bpf_map_lookup_elem (bpf_map_update_elem m k v) k = some v := by
  simp only [bpf_map_update_elem, habs, if_pos hroom]
  rw [lookup_append_of_none habs]
  simp [bpf_map_lookup_elem]

/-- First packet for an absent key (table not full): fresh stats. -/
theorem flow_stats_update_miss {m : FlowTable} {k : flow_key} (len now : Nat)
    (habs : bpf_map_lookup_elem m k = none) (hroom : m.length < MAX_FLOWS) :
    bpf_map_lookup_elem (flow_stats_update k len now m) k =
      some { packet_count := 1, byte_count := len % U64_MOD, l7_protocol := 0,
             first_seen := now, last_seen := now } := by
  simp only [flow_stats_update, habs]
  exact lookup_insert _ habs hroom

/-- Subsequent packet for a present key: counters bumped in place. -/
theorem flow_stats_update_hit {m : FlowTable} {k : flow_key} {s : flow_stats}
    (len now : Nat) (h : bpf_map_lookup_elem m k = some s) :
    bpf_map_lookup_elem (flow_stats_update k len now m) k =
      some { s with
               packet_count := (s.packet_count + 1) % U64_MOD,
               byte_count := (s.byte_count + len) % U64_MOD,
               last_seen := now } := by
  simp only [flow_stats_update, h]
  exact lookup_write_self _ h

theorem processAll_present (k : flow_key) :
    ∀ (pkts : List (Nat × Nat)) (m : FlowTable) (s : flow_stats),
      bpf_map_lookup_elem m k = some s →
      s.packet_count + pkts.length < U64_MOD →
      s.byte_count + (pkts.map Prod.fst).sum < U64_MOD →
      bpf_map_lookup_elem (processAll k pkts m) k =
        some { packet_count := s.packet_count + pkts.length,
               byte_count := s.byte_count + (pkts.map Prod.fst).sum,
               l7_protocol := s.l7_protocol,
               first_seen := s.first_seen,
               last_seen := (pkts.map Prod.snd).getLastD s.last_seen } := by
  intro pkts
  induction pkts with
  | nil =>
    intro m s h _ _
    simpa [processAll] using h
  | cons p rest ih =>
    intro m s h hc hb
    obtain ⟨len, t⟩ := p
    simp only [List.length_cons, List.map_cons, List.sum_cons] at hc hb
    have hpc : (s.packet_count + 1) % U64_MOD = s.packet_count + 1 :=
      Nat.mod_eq_of_lt (by omega)
    have hbc : (s.byte_count + len) % U64_MOD = s.byte_count + len :=
      Nat.mod_eq_of_lt (by omega)
    have hstep := flow_stats_update_hit (m := m) (k := k) (s := s) len t h
    rw [hpc, hbc] at hstep
    have hrec := ih (flow_stats_update k len t m) _ hstep (by simp; omega) (by simp; omega)
    have hfold : processAll k ((len, t) :: rest) m =
        processAll k rest (flow_stats_update k len t m) := rfl
    rw [hfold, hrec]
    simp only [List.map_cons, List.getLastD_cons, List.length_cons, List.sum_cons,
      Option.some.injEq, flow_stats.mk.injEq, and_true, true_and]
    omega

theorem chain_le_getLastD :
    ∀ (l : List Nat) (t : Nat), List.Chain' (· ≤ ·) (t :: l) → t ≤ l.getLastD t := by
  intro l
  induction l with
  | nil => intro t _; simp [List.getLastD]
  | cons a l' ih =>
    intro t h
    rw [List.chain'_cons] at h
    rw [List.getLastD_cons]
    exact le_trans h.1 (ih a h.2)

theorem xdp_run_all_eq (k : flow_key) :
    ∀ (frames : List (List Nat × Nat)) (m : FlowTable),
      (∀ f ∈ frames, xdp_extract f.1 = ExtractResult.key k) →
      xdp_run_all frames m =
        some (processAll k (frames.map fun f => (f.1.length, f.2)) m) := by
  intro frames
  induction frames with
  | nil => intro m _; rfl
  | cons f rest ih =>
    intro m hext
    have hf : xdp_extract f.1 = ExtractResult.key k := hext f (by simp)
    have hstep : (xdp_flow_tracker f.1 f.2 m).map Prod.snd =
        some (flow_stats_update k f.1.length f.2 m) := by
      simp [xdp_flow_tracker, hf]
    have hcons : xdp_run_all (f :: rest) m =
        xdp_run_all rest (flow_stats_update k f.1.length f.2 m) := by
      simp only [xdp_run_all, List.foldl_cons]
      rw [show (some m).bind (fun t => (xdp_flow_tracker f.1 f.2 t).map Prod.snd) =
            (xdp_flow_tracker f.1 f.2 m).map Prod.snd from rfl, hstep]
    rw [hcons, ih _ fun g hg => hext g (by simp [hg])]
    rfl

/-- Whenever `af_packet_process` returns (performs no out-of-bounds
ring read), the value it returns is 0, regardless of the frame's
contents or captured length. -/
theorem af_packet_process_result {ring : List Nat} {bi fi : Nat} {r : Int}
    (h : af_packet_process ring bi fi = some r) : r = 0 := by
  unfold af_packet_process at h
  cases h1 : read32le ring (bi * BLOCK_SIZE + 16) with
  | none => simp [h1] at h
  | some off =>
    cases h2 : read16le ring (bi * BLOCK_SIZE + off + fi * FRAME_SIZE + 24) with
    | none => simp [h1, h2] at h
    | some mac =>
      simp [h1, h2] at h
      omega

/-! ## Claim theorems -/

/-- C1 (counterexample): `af_packet_process` does not skip a frame
whose captured data is shorter than a full Ethernet + IPv4 header.
`ringTrunc` describes a frame captured with only 10 bytes
(`tp_snaplen` = 10 < 34), yet the call succeeds with the same result
0 as for any complete frame — no header is verified against the
captured length and no skip happens. -/
theorem c1_af_truncated_not_skipped :
    af_packet_process ringTrunc 0 0 = some 0 := by decide

/-- C1 (amended): the bounds-check/skip property holds of the XDP
path: `xdp_flow_tracker` never reads past the end of the frame (its
parser never faults) and any frame shorter than a full
Ethernet + IPv4 header is forwarded with no flow key and no flow-table
update.  The user-space `af_packet_process` performs no header bounds
check at all: it reads only block/frame metadata, dereferences no
packet header, and returns 0 for every frame whatever its captured
length. -/
theorem c1_bounds_checks (pkt pktShort : List Nat) (now : Nat) (m : FlowTable)
    (ring : List Nat) (bi fi : Nat) (r : Int)
    (hshort : pktShort.length < ETH_HLEN + IP_HLEN)
    (haf : af_packet_process ring bi fi = some r) :
    xdp_extract pkt ≠ ExtractResult.fault ∧
    xdp_extract pktShort = ExtractResult.pass ∧
    xdp_flow_tracker pktShort now m = some (XdpAction.XDP_PASS, m) ∧
    r = 0 := by
  refine ⟨xdp_extract_ne_fault pkt, xdp_extract_short hshort, ?_,
    af_packet_process_result haf⟩
  simp [xdp_flow_tracker, xdp_extract_short hshort]

/-- C1 (witness): a 10-byte truncated frame through both paths. -/
theorem c1_bounds_checks_witness :
    (List.replicate 10 0).length < ETH_HLEN + IP_HLEN ∧
    af_packet_process ringTrunc 0 0 = some 0 ∧
    (xdp_extract pktTCP ≠ ExtractResult.fault ∧
     xdp_extract (List.replicate 10 0) = ExtractResult.pass ∧
     xdp_flow_tracker (List.replicate 10 0) 7 [] = some (XdpAction.XDP_PASS, []) ∧
     (0 : Int) = 0) :=
  ⟨by decide, by decide,
   c1_bounds_checks pktTCP (List.replicate 10 0) 7 [] ringTrunc 0 0 0
     (by decide) (by decide)⟩

/-- C7: on every control-flow path — truncated headers, non-IPv4
EtherType, table full, fresh insert, in-place update —
`xdp_flow_tracker` returns `XDP_PASS`; it never drops, redirects or
aborts, and never faults. -/
theorem c7_always_xdp_pass (pkt : List Nat) (now : Nat) (m : FlowTable) :
    (xdp_flow_tracker pkt now m).map Prod.fst = some XdpAction.XDP_PASS := by
  unfold xdp_flow_tracker
  cases hx : xdp_extract pkt with
  | fault => exact absurd hx (xdp_extract_ne_fault pkt)
  | pass => simp
  | key k => simp

/-- C3: a frame with complete Ethernet, IPv4 and TCP headers,
EtherType IPv4 and protocol TCP yields the flow key whose fields are
exactly the raw (network-order) header values — source address,
destination address, source port, destination port, protocol 6 — with
no byte-order conversion. -/
theorem c3_tcp_key_raw_fields (pkt : List Nat) (sa da sp dp : Nat)
    (hlen : 54 ≤ pkt.length)
    (heth : read16be pkt 12 = some ETH_P_IP)
    (hproto : read8 pkt 23 = some IPPROTO_TCP)
    (hsa : read32be pkt 26 = some sa)
    (hda : read32be pkt 30 = some da)
    (hsp : read16be pkt 34 = some sp)
    (hdp : read16be pkt 36 = some dp) :
    xdp_extract pkt =
      ExtractResult.key
        { src_ip := sa, dst_ip := da, src_port := sp, dst_port := dp,
          protocol := 6 } := by
  have h14 : ¬ pkt.length < ETH_HLEN := by unfold ETH_HLEN; omega
  have h34 : ¬ pkt.length < ETH_HLEN + IP_HLEN := by
    unfold ETH_HLEN IP_HLEN; omega
  have h54 : ¬ pkt.length < ETH_HLEN + IP_HLEN + TCP_HLEN := by
    unfold ETH_HLEN IP_HLEN TCP_HLEN; omega
  simp [xdp_extract, heth, hproto, hsa, hda, hsp, hdp, h14, h34, h54, IPPROTO_TCP]

/-- C3 (witness): the literal crafted frame `pktTCP` with source
10.0.0.1:4444 and destination 10.0.0.2:80 yields key
(0x0A000001, 0x0A000002, 4444, 80, 6) = `keyTCP`. -/
theorem c3_tcp_key_raw_fields_witness :
    54 ≤ pktTCP.length ∧
    xdp_extract pktTCP =
      ExtractResult.key
        { src_ip := 167772161, dst_ip := 167772162, src_port := 4444,
          dst_port := 80, protocol := 6 } :=
  ⟨by decide,
   c3_tcp_key_raw_fields pktTCP 167772161 167772162 4444 80 (by decide)
     (by decide) (by decide) (by decide) (by decide) (by decide) (by decide)⟩

/-- C8: a frame with complete Ethernet and IPv4 headers whose IP
protocol is neither TCP (6) nor UDP (17) is not skipped: extraction
emits a flow key with both ports zero and the IP protocol number, and
the flow table is updated with that key. -/
theorem c8_other_protocols_zero_ports (pkt : List Nat) (now : Nat)
    (m : FlowTable) (p sa da : Nat)
    (hlen : 34 ≤ pkt.length)
    (heth : read16be pkt 12 = some ETH_P_IP)
    (hproto : read8 pkt 23 = some p)
    (hnt : p ≠ IPPROTO_TCP) (hnu : p ≠ IPPROTO_UDP)
    (hsa : read32be pkt 26 = some sa)
    (hda : read32be pkt 30 = some da) :
    xdp_extract pkt =
      ExtractResult.key
        { src_ip := sa, dst_ip := da, src_port := 0, dst_port := 0,
          protocol := p } ∧
    xdp_flow_tracker pkt now m =
      some (XdpAction.XDP_PASS,
        flow_stats_update
          { src_ip := sa, dst_ip := da, src_port := 0, dst_port := 0,
            protocol := p }
          pkt.length now m) := by
  have h14 : ¬ pkt.length < ETH_HLEN := by unfold ETH_HLEN; omega
  have h34 : ¬ pkt.length < ETH_HLEN + IP_HLEN := by
    unfold ETH_HLEN IP_HLEN; omega
  have hx : xdp_extract pkt =
      ExtractResult.key
        { src_ip := sa, dst_ip := da, src_port := 0, dst_port := 0,
          protocol := p } := by
    simp [xdp_extract, heth, hproto, hsa, hda, h14, h34, hnt, hnu]
  exact ⟨hx, by simp [xdp_flow_tracker, hx]⟩

/-- C8 (witness): the 34-byte ICMP frame `pktICMP` (protocol 1)
yields `keyICMP`, with zero ports, and updates the table. -/
theorem c8_other_protocols_zero_ports_witness :
    34 ≤ pktICMP.length ∧ (1 : Nat) ≠ IPPROTO_TCP ∧ (1 : Nat) ≠ IPPROTO_UDP ∧
    (xdp_extract pktICMP =
      ExtractResult.key
        { src_ip := 70000, dst_ip := 0, src_port := 0, dst_port := 0,
          protocol := 1 } ∧
     xdp_flow_tracker pktICMP 7 [] =
      some (XdpAction.XDP_PASS,
        flow_stats_update
          { src_ip := 70000, dst_ip := 0, src_port := 0, dst_port := 0,
            protocol := 1 }
          pktICMP.length 7 [])) :=
  ⟨by decide, by decide, by decide,
   c8_other_protocols_zero_ports pktICMP 7 [] 1 70000 0 (by decide) (by decide)
     (by decide) (by decide) (by decide) (by decide) (by decide)⟩

/-- C4: with the flow table already holding `MAX_FLOWS` keys and a
packet whose key is absent, `xdp_flow_tracker` neither crashes (it
returns a result, no out-of-bounds access) nor inserts, evicts or
modifies anything: the table is returned unchanged — so every existing
key's counters are untouched — and the packet is still forwarded with
`XDP_PASS`. -/
theorem c4_table_full_no_evict (pkt : List Nat) (now : Nat) (m : FlowTable)
    (k : flow_key)
    (hfull : m.length = MAX_FLOWS)
    (habs : bpf_map_lookup_elem m k = none)
    (hext : xdp_extract pkt = ExtractResult.key k) :
    xdp_flow_tracker pkt now m = some (XdpAction.XDP_PASS, m) := by
  simp only [xdp_flow_tracker, hext]
  simp only [flow_stats_update, habs, bpf_map_update_elem]
  rw [if_neg (by omega)]

/-- C4 (witness): `fullTable` holds exactly `MAX_FLOWS` keys (protocol
0); the ICMP frame's key `keyICMP` (protocol 1) is absent; processing
the frame forwards it and leaves the table unchanged. -/
theorem c4_table_full_no_evict_witness :
    fullTable.length = MAX_FLOWS ∧
    bpf_map_lookup_elem fullTable keyICMP = none ∧
    xdp_extract pktICMP = ExtractResult.key keyICMP ∧
    xdp_flow_tracker pktICMP 9 fullTable = some (XdpAction.XDP_PASS, fullTable) := by
  have hfull : fullTable.length = MAX_FLOWS := by
    simp [fullTable]
  have habs : bpf_map_lookup_elem fullTable keyICMP = none := by
    refine lookup_none_of_all_ne ?_
    intro q hq
    simp only [fullTable, List.mem_map, List.mem_range] at hq
    obtain ⟨i, _, rfl⟩ := hq
    simp [keyICMP, flow_key.mk.injEq]
  have hext : xdp_extract pktICMP = ExtractResult.key keyICMP := by decide
  exact ⟨hfull, habs, hext, c4_table_full_no_evict pktICMP 9 fullTable keyICMP hfull habs hext⟩

/-- C2: for N ≥ 1 frames all extracting to key k, processed in order
by `xdp_flow_tracker` starting from a table where k is absent (and
which has room), no step faults, and the resulting entry for k has
`packet_count` = N, `byte_count` = the sum of the N frame lengths,
`first_seen` = the first frame's timestamp, `last_seen` = the last
frame's timestamp; with a monotone clock `last_seen ≥ first_seen`.
The counter bounds keep the `__u64` additions from wrapping. -/
theorem c2_flow_counters_accumulate (k : flow_key) (f0 : List Nat × Nat)
    (rest : List (List Nat × Nat)) (m0 : FlowTable)
    (hext : ∀ f ∈ f0 :: rest, xdp_extract f.1 = ExtractResult.key k)
    (habs : bpf_map_lookup_elem m0 k = none)
    (hroom : m0.length < MAX_FLOWS)
    (hmono : List.Chain' (· ≤ ·) ((f0 :: rest).map Prod.snd))
    (hn : (f0 :: rest).length < U64_MOD)
    (hb : ((f0 :: rest).map fun f => f.1.length).sum < U64_MOD) :
    xdp_run_all (f0 :: rest) m0 =
      some (processAll k ((f0 :: rest).map fun f => (f.1.length, f.2)) m0) ∧
    bpf_map_lookup_elem
        (processAll k ((f0 :: rest).map fun f => (f.1.length, f.2)) m0) k =
      some { packet_count := (f0 :: rest).length,
             byte_count := ((f0 :: rest).map fun f => f.1.length).sum,
             l7_protocol := 0,
             first_seen := f0.2,
             last_seen := (rest.map Prod.snd).getLastD f0.2 } ∧
    f0.2 ≤ (rest.map Prod.snd).getLastD f0.2 := by
  have map_fst_pairs :
      List.map Prod.fst (rest.map fun f => (f.1.length, f.2)) =
        rest.map fun f => f.1.length := by
    rw [List.map_map]; rfl
  have map_snd_pairs :
      List.map Prod.snd (rest.map fun f => (f.1.length, f.2)) =
        rest.map Prod.snd := by
    rw [List.map_map]; rfl
  refine ⟨xdp_run_all_eq k _ m0 hext, ?_, ?_⟩
  · simp only [List.map_cons, List.sum_cons, List.length_cons] at hb hn ⊢
    have hl : f0.1.length % U64_MOD = f0.1.length := Nat.mod_eq_of_lt (by omega)
    have hmiss := flow_stats_update_miss (m := m0) (k := k) f0.1.length f0.2 habs hroom
    rw [hl] at hmiss
    have hrec := processAll_present k (rest.map fun f => (f.1.length, f.2))
      (flow_stats_update k f0.1.length f0.2 m0) _ hmiss
      (by show 1 + (rest.map fun f => (f.1.length, f.2)).length < U64_MOD
          rw [List.length_map]; omega)
      (by show f0.1.length +
            (List.map Prod.fst (rest.map fun f => (f.1.length, f.2))).sum < U64_MOD
          rw [map_fst_pairs]; omega)
    have hfold : processAll k ((f0.1.length, f0.2) :: rest.map fun f => (f.1.length, f.2)) m0 =
        processAll k (rest.map fun f => (f.1.length, f.2))
          (flow_stats_update k f0.1.length f0.2 m0) := rfl
    rw [hfold, hrec, map_fst_pairs, map_snd_pairs]
    simp only [List.length_map, Option.some.injEq, flow_stats.mk.injEq,
      and_true, true_and]
    omega
  · refine chain_le_getLastD _ _ ?_
    simpa using hmono

/-- C2 (witness): two copies of `pktTCP` (54 bytes each) at times 10
and 20 through an empty table: `packet_count` 2, `byte_count` 108,
`first_seen` 10, `last_seen` 20. -/
theorem c2_flow_counters_accumulate_witness :
    bpf_map_lookup_elem ([] : FlowTable) keyTCP = none ∧
    (xdp_run_all [(pktTCP, 10), (pktTCP, 20)] [] =
      some (processAll keyTCP
        ([(pktTCP, 10), (pktTCP, 20)].map fun f => (f.1.length, f.2)) []) ∧
     bpf_map_lookup_elem
        (processAll keyTCP
          ([(pktTCP, 10), (pktTCP, 20)].map fun f => (f.1.length, f.2)) [])
        keyTCP =
      some { packet_count := [(pktTCP, 10), (pktTCP, 20)].length,
             byte_count := ([(pktTCP, 10), (pktTCP, 20)].map fun f => f.1.length).sum,
             l7_protocol := 0,
             first_seen := 10,
             last_seen := ([(pktTCP, 20)].map Prod.snd).getLastD 10 } ∧
     (10 : Nat) ≤ ([(pktTCP, 20)].map Prod.snd).getLastD 10) :=
  ⟨rfl,
   c2_flow_counters_accumulate keyTCP (pktTCP, 10) [(pktTCP, 20)] []
     (by decide) rfl (by decide) (by simp [List.chain'_cons]) (by decide) (by decide)⟩

/-- C5 (counterexample): the claim that the three failure causes of
`af_packet_init` are distinguishable from the returned value is false:
a permission failure at `socket()`, an interface-resolution failure at
`ioctl(SIOCGIFINDEX)`, a ring rejection at
`setsockopt(PACKET_RX_RING)` and an `mmap` failure all return the same
value, -1. -/
theorem c5_errors_indistinguishable :
    (af_packet_init
      { socket_ok := false, sockfd := 3, ioctl_ok := true, bind_ok := true,
        setsockopt_ok := true, mmap_ok := true } 4096).1 = -1 ∧
    (af_packet_init
      { socket_ok := true, sockfd := 3, ioctl_ok := false, bind_ok := true,
        setsockopt_ok := true, mmap_ok := true } 4096).1 = -1 ∧
    (af_packet_init
      { socket_ok := true, sockfd := 3, ioctl_ok := true, bind_ok := true,
        setsockopt_ok := false, mmap_ok := true } 4096).1 = -1 ∧
    (af_packet_init
      { socket_ok := true, sockfd := 3, ioctl_ok := true, bind_ok := true,
        setsockopt_ok := true, mmap_ok := false } 4096).1 = -1 := by
  exact ⟨rfl, rfl, rfl, rfl⟩

/-- C5 (amended): `af_packet_init` fails with the single untyped value
-1 on every failure path — socket creation, interface-index
resolution, bind, ring setup, memory mapping — so the causes are not
distinguishable from the returned value. -/
theorem c5_failure_returns_minus_one (env : InitEnv) (a : Nat)
    (h : env.socket_ok = false ∨ env.ioctl_ok = false ∨ env.bind_ok = false ∨
         env.setsockopt_ok = false ∨ env.mmap_ok = false) :
    (af_packet_init env a).1 = -1 := by
  unfold af_packet_init
  by_cases h1 : env.socket_ok = false
  · simp [h1]
  · rw [if_neg h1]
    by_cases h2 : env.ioctl_ok = false
    · simp [h2]
    · rw [if_neg h2]
      by_cases h3 : env.bind_ok = false
      · simp [h3]
      · rw [if_neg h3]
        by_cases h4 : env.setsockopt_ok = false
        · simp [h4]
        · rw [if_neg h4]
          by_cases h5 : env.mmap_ok = false
          · simp [h5]
          · rcases h with h | h | h | h | h <;> simp_all

/-- C5 (witness): interface-resolution failure returns -1. -/
theorem c5_failure_returns_minus_one_witness :
    (({ socket_ok := true, sockfd := 3, ioctl_ok := false, bind_ok := true,
        setsockopt_ok := true, mmap_ok := true } : InitEnv).ioctl_ok = false) ∧
    (af_packet_init
      { socket_ok := true, sockfd := 3, ioctl_ok := false, bind_ok := true,
        setsockopt_ok := true, mmap_ok := true } 4096).1 = -1 :=
  ⟨rfl,
   c5_failure_returns_minus_one _ 4096 (Or.inr (Or.inl rfl))⟩

/-- C6: on every failure path of `af_packet_init` — including every
path after the raw socket was created — the function returns with the
socket closed and nothing mapped: a failed open leaks neither the
socket nor a mapping. -/
theorem c6_failure_no_leak (env : InitEnv) (a : Nat)
    (h : (af_packet_init env a).1 = -1) :
    (af_packet_init env a).2.socketOpen = false ∧
    (af_packet_init env a).2.mapped = none := by
  unfold af_packet_init at h ⊢
  by_cases h1 : env.socket_ok = false
  · simp [h1]
  · rw [if_neg h1] at h ⊢
    by_cases h2 : env.ioctl_ok = false
    · simp [h2]
    · rw [if_neg h2] at h ⊢
      by_cases h3 : env.bind_ok = false
      · simp [h3]
      · rw [if_neg h3] at h ⊢
        by_cases h4 : env.setsockopt_ok = false
        · simp [h4]
        · rw [if_neg h4] at h ⊢
          by_cases h5 : env.mmap_ok = false
          · simp [h5]
          · rw [if_neg h5] at h ⊢
            simp at h

/-- C6 (witness): a `bind` failure (after socket creation) returns -1
with the socket closed and nothing mapped. -/
theorem c6_failure_no_leak_witness :
    (af_packet_init
      { socket_ok := true, sockfd := 3, ioctl_ok := true, bind_ok := false,
        setsockopt_ok := true, mmap_ok := true } 4096).1 = -1 ∧
    ((af_packet_init
      { socket_ok := true, sockfd := 3, ioctl_ok := true, bind_ok := false,
        setsockopt_ok := true, mmap_ok := true } 4096).2.socketOpen = false ∧
     (af_packet_init
      { socket_ok := true, sockfd := 3, ioctl_ok := true, bind_ok := false,
        setsockopt_ok := true, mmap_ok := true } 4096).2.mapped = none) :=
  ⟨rfl,
   c6_failure_no_leak
     { socket_ok := true, sockfd := 3, ioctl_ok := true, bind_ok := false,
       setsockopt_ok := true, mmap_ok := true } 4096 rfl⟩

/-- C9: on success `af_packet_init` returns only the socket file
descriptor: the returned value equals `sockfd`, is the same whatever
address the ring was mapped at (the caller gets no value depending on
the ring address, hence no handle to read or unmap it), while the
4 MiB mapping is still held on return. -/
theorem c9_success_returns_only_fd (env : InitEnv) (a b : Nat)
    (hok : env.socket_ok = true ∧ env.ioctl_ok = true ∧ env.bind_ok = true ∧
           env.setsockopt_ok = true ∧ env.mmap_ok = true) :
    (af_packet_init env a).1 = (env.sockfd : Int) ∧
    (af_packet_init env a).1 = (af_packet_init env b).1 ∧
    (af_packet_init env a).2.mapped = some a := by
  obtain ⟨h1, h2, h3, h4, h5⟩ := hok
  simp [af_packet_init, h1, h2, h3, h4, h5]

/-- C9 (witness): a fully successful run with the ring mapped at 4096
or 8192 returns the same value, fd 3, with the mapping still live. -/
theorem c9_success_returns_only_fd_witness :
    (af_packet_init
      { socket_ok := true, sockfd := 3, ioctl_ok := true, bind_ok := true,
        setsockopt_ok := true, mmap_ok := true } 4096).1 = ((3 : Nat) : Int) ∧
    (af_packet_init
      { socket_ok := true, sockfd := 3, ioctl_ok := true, bind_ok := true,
        setsockopt_ok := true, mmap_ok := true } 4096).1 =
      (af_packet_init
        { socket_ok := true, sockfd := 3, ioctl_ok := true, bind_ok := true,
          setsockopt_ok := true, mmap_ok := true } 8192).1 ∧
    (af_packet_init
      { socket_ok := true, sockfd := 3, ioctl_ok := true, bind_ok := true,
        setsockopt_ok := true, mmap_ok := true } 4096).2.mapped = some 4096 :=
  c9_success_returns_only_fd
    { socket_ok := true, sockfd := 3, ioctl_ok := true, bind_ok := true,
      setsockopt_ok := true, mmap_ok := true } 4096 8192
    ⟨rfl, rfl, rfl, rfl, rfl⟩

/-- C10: `strncpy(ifr.ifr_name, interface, IFNAMSIZ)` on a name of
`IFNAMSIZ` or more bytes copies exactly `IFNAMSIZ` bytes and writes no
NUL terminator (the buffer contains no zero byte), so the
interface-index ioctl receives a non-NUL-terminated name; a shorter
name is copied intact and NUL-terminated right after its last byte. -/
theorem c10_strncpy_truncation (src : List Nat) (hnz : 0 ∉ src) :
    (strncpyBuf src IFNAMSIZ).length = IFNAMSIZ ∧
    (IFNAMSIZ ≤ src.length →
      strncpyBuf src IFNAMSIZ = src.take IFNAMSIZ ∧
      0 ∉ strncpyBuf src IFNAMSIZ) ∧
    (src.length < IFNAMSIZ →
      (strncpyBuf src IFNAMSIZ).take src.length = src ∧
      (strncpyBuf src IFNAMSIZ)[src.length]? = some 0) := by
  refine ⟨?_, fun hge => ⟨?_, ?_⟩, fun hlt => ⟨?_, ?_⟩⟩
  · simp only [strncpyBuf, List.length_append, List.length_take,
      List.length_replicate, Nat.min_def]
    split <;> omega
  · have hz : IFNAMSIZ - src.length = 0 := by omega
    simp [strncpyBuf, hz]
  · intro hmem
    have hz : IFNAMSIZ - src.length = 0 := by omega
    simp only [strncpyBuf, hz, List.replicate_zero, List.append_nil] at hmem
    exact hnz (List.take_subset _ _ hmem)
  · have ht : src.take IFNAMSIZ = src := List.take_of_length_le (by omega)
    rw [strncpyBuf, ht, List.take_left' rfl]
  · have ht : src.take IFNAMSIZ = src := List.take_of_length_le (by omega)
    rw [strncpyBuf, ht, List.getElem?_append_right (le_refl _)]
    simp only [Nat.sub_self, List.getElem?_replicate]
    rw [if_pos (by omega)]

/-- C10 (witness): the 4-byte name "eth0" (bytes 101 116 104 48) is
copied intact and NUL-terminated at index 4; a 16-byte buffer results
either way. -/
theorem c10_strncpy_truncation_witness :
    (0 : Nat) ∉ [101, 116, 104, 48] ∧
    (strncpyBuf [101, 116, 104, 48] IFNAMSIZ).length = IFNAMSIZ ∧
    ([101, 116, 104, 48] : List Nat).length < IFNAMSIZ ∧
    (strncpyBuf [101, 116, 104, 48] IFNAMSIZ).take 4 = [101, 116, 104, 48] ∧
    (strncpyBuf [101, 116, 104, 48] IFNAMSIZ)[(4 : Nat)]? = some 0 := by
  have h := c10_strncpy_truncation [101, 116, 104, 48] (by decide)
  exact ⟨by decide, h.1, by decide, (h.2.2 (by decide)).1, (h.2.2 (by decide)).2⟩
